import Mathlib

/-!
Shallow embedding of `pysr/sr.py` (the PySR wrapper) together with a
spec-modelled Hall of Fame for the external Julia search engine.

The wrapper `pysr(...)` validates its arguments with a chain of `assert`s,
serializes hyperparameters and the dataset into generated Julia scripts,
launches an external `julia` process (optionally wrapped in a wall-clock
`timeout`), and finally parses the equation CSV file back into a result
table.  The embedding below follows the source statement by statement;
line numbers in comments refer to `src/pysr/sr.py`.
-/

namespace PySR

/-- Exceptions that `pysr` can raise during its argument-checking phase:
`valueError` for the deprecated `threads` kwarg (line 147), `assertionError`
for a failed `assert` (lines 152-160), and `attributeError` for an attribute
access on `None` (e.g. `X.shape` when `X is None`, line 153). -/
inductive PyError
  | valueError
  | assertionError
  | attributeError
deriving DecidableEq, Repr

/-- Model of a numpy `ndarray`: its shape tuple plus flat data.  The wrapper
only ever inspects `shape` (lines 153-160, 243, 296) and reads the data via
`tolist()` (lines 244-253); it never writes an element. -/
structure NDArray where
  shape : List Nat
  data : List ℚ
deriving DecidableEq, Repr

/-- The arguments of `pysr` that the embedding tracks (source lines 43-81).
Arguments that only feed the generated hyperparameter text and are touched
by no claim (`alpha`, `parsimony`, the eight mutation weights, ...) are
omitted; `X`, `y`, `weights` and `threads` are `Option` to model Python's
`None` defaults. -/
structure PysrArgs where
  X : Option NDArray
  y : Option NDArray
  weights : Option NDArray
  procs : Nat
  populations : Option Nat
  niterations : Nat
  ncyclesperiteration : Nat
  binary_operators : List String
  unary_operators : List String
  fractionReplaced : ℚ
  npop : Nat
  topn : Nat
  timeout : Option ℚ
  equation_file : String
  verbosity : ℚ
  maxsize : Nat
  maxdepth : Option Nat
  variable_names : List String
  threads : Option Nat
  julia_optimization : Nat
deriving DecidableEq, Repr

/-- Argument validation, source lines 146-160, in source order:
the deprecated-`threads` check (line 146-147) raises `ValueError`; the
operator-count assert (line 152); `len(X.shape) == 2` (line 153), which on
`X = None` raises `AttributeError` before the shape is compared;
`len(y.shape) == 1` (line 154); `X.shape[0] == y.shape[0]` (line 155);
the optional weight-shape asserts (lines 156-158); and the
variable-name-count assert (lines 159-160). -/
def validate (args : PysrArgs) : Except PyError Unit :=
  if args.threads.isSome then .error .valueError
  else if ¬ 0 < args.unary_operators.length + args.binary_operators.length then
    .error .assertionError
  else
    match args.X with
    | none => .error .attributeError
    | some x =>
      if ¬ x.shape.length = 2 then .error .assertionError
      else
        match args.y with
        | none => .error .attributeError
        | some yv =>
          if ¬ yv.shape.length = 1 then .error .assertionError
          else if ¬ x.shape.headD 0 = yv.shape.headD 0 then .error .assertionError
          else
            match args.weights with
            | some w =>
              if ¬ w.shape.length = 1 then .error .assertionError
              else if ¬ x.shape.headD 0 = w.shape.headD 0 then .error .assertionError
              else if args.variable_names.length ≠ 0 ∧
                  args.variable_names.length ≠ (x.shape.get? 1).getD 0 then
                .error .assertionError
              else .ok ()
            | none =>
              if args.variable_names.length ≠ 0 ∧
                  args.variable_names.length ≠ (x.shape.get? 1).getD 0 then
                .error .assertionError
              else .ok ()

/-- The `fullRun(...)` invocation printed into the generated runfile
(source line 271): its positional `niterations` argument and the keyword
arguments, each interpolated from the corresponding `pysr` parameter. -/
structure RunfileCall where
  niterations : Nat
  npop : Nat
  ncyclesperiteration : Nat
  fractionReplaced : ℚ
  verbosity : ℚ
  topn : Nat
deriving DecidableEq, Repr

/-- One token of the assembled shell command (source lines 275-281).  The
source builds a list of f-strings and joins them with spaces; the embedding
keeps each token structured instead of formatted, since the claims are
about which tokens appear, not about decimal formatting. -/
inductive CommandPart
  | timeoutWrap (seconds : ℚ)
  | juliaExe (optLevel : Nat)
  | procsFlag (procs : Nat)
  | runfilePath (rand_string : String)
deriving DecidableEq, Repr

/-- The command list of source lines 275-279 before the timeout wrapper:
`julia -O{julia_optimization}`, `-p {procs}`, `/tmp/.runfile_{rand_string}.jl`. -/
def baseCommand (args : PysrArgs) (rand_string : String) : List CommandPart :=
  [.juliaExe args.julia_optimization, .procsFlag args.procs, .runfilePath rand_string]

/-- Source lines 280-281: when `timeout` is not `None`, the command list is
prefixed with `timeout {timeout}`; otherwise it is left as built. -/
def buildCommand (args : PysrArgs) (rand_string : String) : List CommandPart :=
  match args.timeout with
  | none => baseCommand args rand_string
  | some t => .timeoutWrap t :: baseCommand args rand_string

/-- Everything `pysr` hands to the external search: the structured
`fullRun` call of the runfile (line 271) and the shell command (lines
275-282).  `npopulations` records the `populations = procs` defaulting of
lines 162-163. -/
structure LaunchSpec where
  fullRun : RunfileCall
  command : List CommandPart
  npopulations : Nat
deriving DecidableEq, Repr

/-- Assembles the launch data from the arguments (source lines 162-163,
267-282). -/
def buildLaunch (args : PysrArgs) (rand_string : String) : LaunchSpec :=
  { fullRun :=
      { niterations := args.niterations
        npop := args.npop
        ncyclesperiteration := args.ncyclesperiteration
        fractionReplaced := args.fractionReplaced
        verbosity := args.verbosity
        topn := args.topn }
    command := buildCommand args rand_string
    npopulations := args.populations.getD args.procs }

/-- One row of the equation CSV file read back at line 286 (`pd.read_csv`,
separator `|`): the columns accessed by the wrapper are `Complexity`
(line 302), `MSE` (line 301) and `Equation` (line 298). -/
structure EqFileRow where
  Complexity : Nat
  MSE : ℚ
  Equation : String
deriving DecidableEq, Repr

/-- One row of the returned dataframe, restricted to the plain-data columns
`Complexity`, `MSE`, `Equation` of the final column selection at line 317
(the derived `score` column is modelled separately by `computeScores`; the
`sympy_format` / `lambda_format` columns wrap external sympy objects and
carry no data of their own beyond `Equation`). -/
structure OutRow where
  complexity : Nat
  mse : ℚ
  equation : String
deriving DecidableEq, Repr

/-- The dataframe rows produced from the equation file: `pd.read_csv` keeps
the file's rows in file order and the wrapper never sorts them (lines
285-317 only append columns), so row `i` of the output is row `i` of the
file. -/
def buildRows (file : List EqFileRow) : List OutRow :=
  file.map fun r => { complexity := r.Complexity, mse := r.MSE, equation := r.Equation }

/-- The run-dependent environment of one `pysr` call: the random suffix for
the generated file names (line 170) and the equation file found after the
external process finished (`none` models `FileNotFoundError` at line 287). -/
structure PysrEnv where
  rand_string : String
  file : Option (List EqFileRow)

/-- A completed `pysr` call: what was launched, whether the `X is None`
test-dataset branch of lines 175-189 was taken, and the rows of the
returned dataframe (`[]` models the empty `pd.DataFrame()` returned at
line 289 when the equation file is missing). -/
structure PysrSuccess where
  launch : LaunchSpec
  usedTestMode : Bool
  table : List OutRow

/-- The wrapper `pysr` as a function of its arguments and environment:
validation (lines 146-160) in source order, then the `X is None`
test-dataset branch (lines 175-189), script generation and launch (lines
162-284), then result parsing (lines 285-317).  A `PyError` escapes only
from the validation phase; everything after it returns normally. -/
def pysr (args : PysrArgs) (env : PysrEnv) : Except PyError PysrSuccess :=
  match validate args with
  | .error e => .error e
  | .ok _ =>
      .ok
        { launch := buildLaunch args env.rand_string
          usedTestMode := args.X.isNone
          table := (env.file.map buildRows).getD [] }

/-- The score loop of source lines 291-311: state `(lastMSE, lastComplexity)`
starts as `(None, 0)`; the first row gets score `0.0` (lines 304-305) and
every later row gets `np.log(curMSE/lastMSE)/(curComplexity-lastComplexity)`
(line 307), after which the state advances (lines 310-311).  Float arithmetic
is modelled over the reals. -/
noncomputable def scoresLoop (lastMSE : Option ℚ) (lastComplexity : Nat) :
    List EqFileRow → List ℝ
  | [] => []
  | r :: rest =>
      (match lastMSE with
        | none => (0 : ℝ)
        | some lm =>
            Real.log ((r.MSE : ℝ) / (lm : ℝ)) /
              ((r.Complexity : ℝ) - (lastComplexity : ℝ))) ::
        scoresLoop (some r.MSE) r.Complexity rest

/-- The `score` column attached to the output at line 314, one entry per
row of the equation file. -/
noncomputable def computeScores (file : List EqFileRow) : List ℝ :=
  scoresLoop none 0 file

/-- The distinct sympy lambdas of the built-in `sympy_mappings` dict
(source lines 10-41), plus user-supplied lambdas arriving through
`extra_sympy_mappings`, tagged by an arbitrary identifier. -/
inductive SympyFn
  | div | mult | plus | neg | pow | cos | sin | tan | cosh | sinh | tanh
  | exp | acos | asin | atan | acosh | asinh | atanh | abs | mod | erf
  | erfc | logm | logm10 | logm2 | log1p | floor | ceil | sign | round
  | userDefined (id : Nat)
deriving DecidableEq, Repr

/-- A Python dict of sympy mappings, as an association list in insertion
order (a dict literal has distinct keys, so first-match lookup below agrees
with Python's lookup). -/
abbrev PyDict : Type := List (String × SympyFn)

/-- Python `d[k]` / `k in d` on the association-list model. -/
def pyDictGet (d : PyDict) (k : String) : Option SympyFn :=
  (d.find? fun p => p.1 == k).map fun p => p.2

/-- The built-in `sympy_mappings` dict, source lines 10-41. -/
def sympy_mappings : PyDict :=
  [("div", .div), ("mult", .mult), ("plus", .plus), ("neg", .neg),
   ("pow", .pow), ("cos", .cos), ("sin", .sin), ("tan", .tan),
   ("cosh", .cosh), ("sinh", .sinh), ("tanh", .tanh), ("exp", .exp),
   ("acos", .acos), ("asin", .asin), ("atan", .atan), ("acosh", .acosh),
   ("asinh", .asinh), ("atanh", .atanh), ("abs", .abs), ("mod", .mod),
   ("erf", .erf), ("erfc", .erfc), ("logm", .logm), ("logm10", .logm10),
   ("logm2", .logm2), ("log1p", .log1p), ("floor", .floor), ("ceil", .ceil),
   ("sign", .sign), ("round", .round)]

/-- Source lines 165-168: `local_sympy_mappings = {**extra_sympy_mappings,
**sympy_mappings}`.  In Python's double-splat merge the later dict wins on
key collisions, so the result maps `k` to `sympy_mappings[k]` when present
there and to `extra_sympy_mappings[k]` otherwise; with first-match lookup
this is lookup in `sympy_mappings ++ extra`. -/
def local_sympy_mappings (extra : PyDict) : PyDict :=
  sympy_mappings ++ extra

section HallOfFame

/-- Modelled from the spec: an entry of the Hall of Fame.  The Hall of Fame
lives in the external Julia engine (`julia/sr.jl`), which is not part of
`src/`; per spec §3 an Individual carries a tree (abstracted to a handle
here), a cached loss, a complexity and a birth counter. -/
structure HofIndividual where
  tree : Nat
  loss : ℚ
  complexity : Nat
  birth : Nat
deriving DecidableEq, Repr

/-- Modelled from the spec: the Hall of Fame is a "mapping from complexity
(1..maxsize) to the best Individual ever observed at that exact complexity"
(spec §3), with empty slots. -/
abbrev HallOfFame : Type := Nat → Option HofIndividual

/-- Modelled from the spec, §4.6 `consider(individual)`: "for
`individual.complexity`, if no entry exists or `individual.loss` strictly
improves the existing entry's loss, store a structural clone of the
individual"; every other slot is untouched. -/
def consider (hof : HallOfFame) (ind : HofIndividual) : HallOfFame :=
  fun c =>
    if c = ind.complexity then
      match hof c with
      | none => some ind
      | some cur => if ind.loss < cur.loss then some ind else some cur
    else hof c

/-- A run of the engine, as far as the Hall of Fame is concerned: the
archive after considering a stream of individuals in order (spec §4.8:
every iteration updates the Hall of Fame via 4.6). -/
def runHof (hof : HallOfFame) (inds : List HofIndividual) : HallOfFame :=
  inds.foldl consider hof

end HallOfFame

section ArrayFrame

/-- The three caller-supplied numpy arrays of `pysr`. -/
inductive DataArray
  | X | y | weights
deriving DecidableEq, Repr

/-- One step of `pysr` as far as the caller's arrays are concerned: a read
of an array (`.shape`, `.tolist()`), a hypothetical in-place write to one
(numpy `arr[...] = v`; `pysr` contains no such statement), or a step that
touches no caller array (local bindings, operator-list munging, file
writes, `os.system`). -/
inductive ArrStep
  | readArr (a : DataArray)
  | writeArr (a : DataArray) (newData : List ℚ)
  | localStep
deriving DecidableEq, Repr

/-- The contents of the caller's three arrays. -/
structure ArrState where
  X : List ℚ
  y : List ℚ
  weights : List ℚ
deriving DecidableEq, Repr

/-- Effect of one step on the caller's arrays: reads and local steps leave
them untouched; an in-place write would replace the target's contents. -/
def stepArr (s : ArrState) : ArrStep → ArrState
  | .readArr _ => s
  | .localStep => s
  | .writeArr .X d => { s with X := d }
  | .writeArr .y d => { s with y := d }
  | .writeArr .weights d => { s with weights := d }

/-- Runs a step sequence over the caller's arrays. -/
def runArrSteps (steps : List ArrStep) (s : ArrState) : ArrState :=
  steps.foldl stepArr s

/-- The array-touching trace of a successful `pysr` call, statement by
statement: the shape asserts (lines 153-160: `X.shape`, `y.shape`,
`X.shape[0] == y.shape[0]`, and the weight asserts when `weights` is
given), the operator munging and hyperparameter text (lines 196-241, local
only — line 208 mutates the operator *lists*, not the arrays), the dataset
serialization (lines 243-247 read `X.shape[1]` and `X.tolist()`,
`y.tolist()`; lines 252-255 read `weights.tolist()` when given), the file
writes and `os.system` (lines 261-284, local), and `sympy_symbols` reading
`X.shape[1]` (line 296). -/
def pysrArrayTrace (weightsGiven : Bool) : List ArrStep :=
  [.readArr .X, .readArr .y, .readArr .X, .readArr .y] ++
    (if weightsGiven then [.readArr .weights, .readArr .X, .readArr .weights]
      else []) ++
    [.localStep, .localStep,
     .readArr .X, .readArr .X, .readArr .y] ++
    (if weightsGiven then [.readArr .weights] else []) ++
    [.localStep, .localStep, .localStep, .localStep,
     .readArr .X]

end ArrayFrame

section ConcreteInputs

/-- A well-formed argument record: `X` a 2×1 array, `y` of length 2, the
default operator lists, no weights, no variable names, `timeout = 5`. -/
def argsOK : PysrArgs :=
  { X := some ⟨[2, 1], [0, 0]⟩
    y := some ⟨[2], [0, 0]⟩
    weights := none
    procs := 4
    populations := none
    niterations := 100
    ncyclesperiteration := 300
    binary_operators := ["plus", "mult"]
    unary_operators := ["cos", "exp", "sin"]
    fractionReplaced := 1/10
    npop := 1000
    topn := 10
    timeout := some 5
    equation_file := "hall_of_fame.csv"
    verbosity := 1000000000
    maxsize := 20
    maxdepth := none
    variable_names := []
    threads := none
    julia_optimization := 3 }

/-- Arguments with both operator lists empty. -/
def argsNoOps : PysrArgs :=
  { argsOK with binary_operators := [], unary_operators := [] }

/-- Arguments with `X` left as `None` (the documented built-in test mode). -/
def argsNoX : PysrArgs := { argsOK with X := none }

/-- Arguments whose `y` has 3 entries against the 2 rows of `X`. -/
def argsMismatch : PysrArgs := { argsOK with y := some ⟨[3], [0, 0, 0]⟩ }

/-- An environment in which the search left no equation file behind. -/
def envNoFile : PysrEnv := ⟨"01234567890123456789", none⟩

/-- An equation file whose rows are not sorted by complexity. -/
def fileUnsorted : List EqFileRow := [⟨3, 1, "x0"⟩, ⟨1, 2, "1.0"⟩]

/-- An environment holding the unsorted equation file. -/
def envUnsorted : PysrEnv := ⟨"01234567890123456789", some fileUnsorted⟩

/-- An equation file whose rows are sorted ascending by complexity. -/
def fileSorted : List EqFileRow := [⟨1, 2, "1.0"⟩, ⟨3, 1, "x0"⟩]

/-- An environment holding the sorted equation file. -/
def envSorted : PysrEnv := ⟨"01234567890123456789", some fileSorted⟩

/-- The complexity column of a `pysr` result (empty for an error result). -/
def tableComplexities : Except PyError PysrSuccess → List Nat
  | .ok s => s.table.map fun r => r.complexity
  | .error _ => []

/-- A two-row equation file with strictly increasing complexity. -/
def fileTwo : List EqFileRow := [⟨1, 4, "1.0"⟩, ⟨3, 2, "x0"⟩]

/-- An initial Hall of Fame holding one entry, of loss 5, at complexity 3. -/
def hofInit : HallOfFame :=
  fun c => if c = 3 then some ⟨0, 5, 3, 0⟩ else none

/-- Two individuals at complexity 3, of losses 2 and 4. -/
def indsRun : List HofIndividual := [⟨1, 2, 3, 1⟩, ⟨2, 4, 3, 2⟩]

end ConcreteInputs

/-! Theorems. -/

/-- Helper: `find?` returns the first hit, so a hit in the left part of an
append is the hit of the whole list. -/
theorem find?_append_left {α : Type} (p : α → Bool) :
    ∀ (l₁ l₂ : List α) (b : α), l₁.find? p = some b → (l₁ ++ l₂).find? p = some b := by
  intro l₁
  induction l₁ with
  | nil => intro l₂ b h; simp [List.find?] at h
  | cons a l ih =>
    intro l₂ b h
    by_cases hp : p a
    · rw [List.find?_cons_of_pos _ hp] at h
      simpa [List.find?_cons_of_pos _ hp] using h
    · rw [List.find?_cons_of_neg _ hp] at h
      simpa [List.find?_cons_of_neg _ hp] using ih l₂ b h

/-- C1: once a Hall of Fame slot holds an entry, it holds one after any
further stream of considered individuals; its loss never increases, and it
changes only to an individual of strictly smaller loss at that same
complexity. -/
theorem hall_of_fame_loss_monotone (inds : List HofIndividual) (hof : HallOfFame)
    (c : Nat) (cur : HofIndividual) (h : hof c = some cur) :
    ∃ b, runHof hof inds c = some b ∧ b.loss ≤ cur.loss ∧
      (b ≠ cur → b.loss < cur.loss ∧ b.complexity = c) := by
  induction inds generalizing hof cur with
  | nil => exact ⟨cur, h, le_refl _, fun hne => absurd rfl hne⟩
  | cons ind rest ih =>
    have hstep : ∃ b1, consider hof ind c = some b1 ∧ b1.loss ≤ cur.loss ∧
        (b1 ≠ cur → b1.loss < cur.loss ∧ b1.complexity = c) := by
      by_cases hc : c = ind.complexity
      · have hval : consider hof ind c =
            if ind.loss < cur.loss then some ind else some cur := by
          unfold consider
          rw [if_pos hc, h]
        by_cases hl : ind.loss < cur.loss
        · exact ⟨ind, by rw [hval]; simp [hl], le_of_lt hl, fun _ => ⟨hl, hc.symm⟩⟩
        · exact ⟨cur, by rw [hval]; simp [hl], le_refl _, fun hne => absurd rfl hne⟩
      · exact ⟨cur, by simp [consider, hc, h], le_refl _, fun hne => absurd rfl hne⟩
    obtain ⟨b1, h1, hle1, hst1⟩ := hstep
    obtain ⟨b, hb, hble, hbst⟩ := ih (consider hof ind) b1 h1
    refine ⟨b, ?_, le_trans hble hle1, ?_⟩
    · simpa [runHof, List.foldl] using hb
    · intro hbc
      by_cases hbb : b = b1
      · subst hbb; exact hst1 hbc
      · obtain ⟨hlt, hcc⟩ := hbst hbb
        exact ⟨lt_of_lt_of_le hlt hle1, hcc⟩

/-- Witness for C1 at a concrete initial archive and stream. -/
theorem hall_of_fame_loss_monotone_witness :
    hofInit 3 = some ⟨0, 5, 3, 0⟩ ∧
    ∃ b, runHof hofInit indsRun 3 = some b ∧
      b.loss ≤ (HofIndividual.mk 0 5 3 0).loss ∧
      (b ≠ ⟨0, 5, 3, 0⟩ → b.loss < (HofIndividual.mk 0 5 3 0).loss ∧ b.complexity = 3) :=
  ⟨rfl, hall_of_fame_loss_monotone indsRun hofInit 3 ⟨0, 5, 3, 0⟩ rfl⟩

/-- C7: running the array-touching trace of `pysr` over any contents of the
caller's `X`, `y` and `weights` leaves all three unchanged — the trace
contains reads only, never an in-place write. -/
theorem pysr_arrays_unchanged (weightsGiven : Bool) (s : ArrState) :
    runArrSteps (pysrArrayTrace weightsGiven) s = s := by
  cases weightsGiven <;> rfl

/-- C10: a key present in the built-in `sympy_mappings` keeps its built-in
value in the merged `local_sympy_mappings`, whatever `extra_sympy_mappings`
binds it to — the `{**extra, **builtin}` merge gives the built-ins
precedence. -/
theorem builtin_mappings_take_precedence (extra : PyDict) (k : String) (v : SympyFn)
    (h : pyDictGet sympy_mappings k = some v) :
    pyDictGet (local_sympy_mappings extra) k = some v := by
  unfold pyDictGet at h ⊢
  unfold local_sympy_mappings
  obtain ⟨p, hp, hpv⟩ : ∃ p, sympy_mappings.find? (fun q => q.1 == k) = some p ∧ p.2 = v := by
    cases hf : sympy_mappings.find? (fun q => q.1 == k) with
    | none => rw [hf] at h; simp at h
    | some p => rw [hf] at h; simp at h; exact ⟨p, rfl, h⟩
  rw [find?_append_left _ sympy_mappings extra p hp]
  simp [hpv]

/-- Witness for C10: a user mapping for `cos` is ignored in favour of the
built-in one. -/
theorem builtin_mappings_take_precedence_witness :
    pyDictGet sympy_mappings "cos" = some SympyFn.cos ∧
    pyDictGet (local_sympy_mappings [("cos", SympyFn.userDefined 0)]) "cos" =
      some SympyFn.cos :=
  ⟨by decide, builtin_mappings_take_precedence [("cos", SympyFn.userDefined 0)]
    "cos" SympyFn.cos (by decide)⟩

/-- C2: for any validated call, `pysr` returns normally whatever the
external search left behind — in particular, when the timeout killed the
process before the equation file appeared, the result is the empty table
and no exception reaches the caller (the `FileNotFoundError` of line 287
is caught at line 288 and the exit status of the timed-out command is never
inspected). -/
theorem pysr_timeout_returns_table (args : PysrArgs) (env : PysrEnv)
    (hv : validate args = Except.ok ()) :
    ∃ s, pysr args env = Except.ok s ∧ (env.file = none → s.table = []) := by
  unfold pysr
  rw [hv]
  exact ⟨_, rfl, fun hf => by simp [hf]⟩

/-- Witness for C2: valid arguments with `timeout = 5` and no equation file
left behind. -/
theorem pysr_timeout_returns_table_witness :
    validate argsOK = Except.ok () ∧
    ∃ s, pysr argsOK envNoFile = Except.ok s ∧ (envNoFile.file = none → s.table = []) :=
  ⟨rfl, pysr_timeout_returns_table argsOK envNoFile rfl⟩

/-- C3: with both operator lists empty, `pysr` stops with an error raised
by the pre-launch checks of lines 146-152; an error result carries no
`LaunchSpec`, so no search worker is ever started. -/
theorem pysr_empty_operators_error (args : PysrArgs) (env : PysrEnv)
    (hb : args.binary_operators = []) (hu : args.unary_operators = []) :
    ∃ e, pysr args env = Except.error e := by
  cases hts : args.threads with
  | some t => exact ⟨.valueError, by simp [pysr, validate, hts]⟩
  | none => exact ⟨.assertionError, by simp [pysr, validate, hts, hb, hu]⟩

/-- Witness for C3 at concrete empty operator lists. -/
theorem pysr_empty_operators_error_witness :
    argsNoOps.binary_operators = [] ∧ argsNoOps.unary_operators = [] ∧
    ∃ e, pysr argsNoOps envNoFile = Except.error e :=
  ⟨rfl, rfl, pysr_empty_operators_error argsNoOps envNoFile rfl rfl⟩

/-- C6: a validated call launches a runfile whose `fullRun` call receives
exactly `niterations` as its iteration count (line 271), and the shell
command is prefixed by a `timeout` wrapper exactly when the `timeout`
argument was provided (lines 280-281). -/
theorem pysr_launch_niterations_timeout (args : PysrArgs) (env : PysrEnv)
    (hv : validate args = Except.ok ()) :
    ∃ s, pysr args env = Except.ok s ∧
      s.launch.fullRun.niterations = args.niterations ∧
      (∀ t, args.timeout = some t →
        s.launch.command.head? = some (CommandPart.timeoutWrap t)) ∧
      (args.timeout = none →
        ∀ t, CommandPart.timeoutWrap t ∉ s.launch.command) := by
  unfold pysr
  rw [hv]
  refine ⟨_, rfl, rfl, ?_, ?_⟩
  · intro t ht
    simp [buildLaunch, buildCommand, ht]
  · intro ht t
    simp [buildLaunch, buildCommand, baseCommand, ht]

/-- Witness for C6: with `timeout = 5` the command's first token is the
timeout wrapper. -/
theorem pysr_launch_niterations_timeout_witness :
    validate argsOK = Except.ok () ∧
    ∃ s, pysr argsOK envNoFile = Except.ok s ∧
      s.launch.fullRun.niterations = argsOK.niterations ∧
      (∀ t, argsOK.timeout = some t →
        s.launch.command.head? = some (CommandPart.timeoutWrap t)) ∧
      (argsOK.timeout = none →
        ∀ t, CommandPart.timeoutWrap t ∉ s.launch.command) :=
  ⟨rfl, pysr_launch_niterations_timeout argsOK envNoFile rfl⟩

/-- C9: with `X` left as `None` (and the two earlier checks of lines
146-152 passing), `pysr` raises the `AttributeError` produced by evaluating
`X.shape` at line 153 — so execution never reaches the `X is None` branch of
lines 175-189 and the built-in test mode is dead code. -/
theorem pysr_test_mode_unreachable (args : PysrArgs) (env : PysrEnv)
    (hX : args.X = none) (ht : args.threads = none)
    (hops : 0 < args.unary_operators.length + args.binary_operators.length) :
    pysr args env = Except.error PyError.attributeError := by
  simp [pysr, validate, hX, ht, hops]

/-- Witness for C9 at a concrete call with `X = None`. -/
theorem pysr_test_mode_unreachable_witness :
    argsNoX.X = none ∧ argsNoX.threads = none ∧
    0 < argsNoX.unary_operators.length + argsNoX.binary_operators.length ∧
    pysr argsNoX envNoFile = Except.error PyError.attributeError :=
  ⟨rfl, rfl, by decide,
    pysr_test_mode_unreachable argsNoX envNoFile rfl rfl (by decide)⟩

/-- Helper: facts guaranteed by a successful validation — the shape checks
of lines 155-160 all passed. -/
theorem validate_ok_facts (args : PysrArgs) (x yv : NDArray)
    (hx : args.X = some x) (hy : args.y = some yv)
    (hval : validate args = Except.ok ()) :
    x.shape.headD 0 = yv.shape.headD 0 ∧
    (∀ w, args.weights = some w → x.shape.headD 0 = w.shape.headD 0) ∧
    (args.variable_names ≠ [] →
      args.variable_names.length = (x.shape.get? 1).getD 0) := by
  unfold validate at hval
  simp only [hx, hy] at hval
  rcases hw : args.weights with _ | w
  · simp only [hw] at hval
    split_ifs at hval with h1 h2 h3 h4 h5 h6
    all_goals try simp at hval
    refine ⟨h5, ?_, ?_⟩
    · intro w' hw'
      simp at hw'
    · intro hn
      have h0 : args.variable_names.length ≠ 0 :=
        fun h0 => hn (List.length_eq_zero.mp h0)
      exact not_not.mp (fun hc => h6 ⟨h0, hc⟩)
  · simp only [hw] at hval
    split_ifs at hval with h1 h2 h3 h4 h5 h6 h7 h8
    all_goals try simp at hval
    refine ⟨h5, ?_, ?_⟩
    · intro w' hw'
      cases hw'
      exact h7
    · intro hn
      have h0 : args.variable_names.length ≠ 0 :=
        fun h0 => hn (List.length_eq_zero.mp h0)
      exact not_not.mp (fun hc => h8 ⟨h0, hc⟩)

/-- C4: a row-count mismatch between `X` and `y`, a weights-length
mismatch, or a variable-name-count mismatch makes `pysr` stop with an
error from the asserts of lines 155-160; an error result carries no
`LaunchSpec`, so no search is attempted. -/
theorem pysr_shape_mismatch_error (args : PysrArgs) (env : PysrEnv)
    (x yv : NDArray) (hx : args.X = some x) (hy : args.y = some yv)
    (hmis : x.shape.headD 0 ≠ yv.shape.headD 0
      ∨ (∃ w, args.weights = some w ∧ w.shape.headD 0 ≠ x.shape.headD 0)
      ∨ (args.variable_names ≠ [] ∧
          args.variable_names.length ≠ (x.shape.get? 1).getD 0)) :
    ∃ e, pysr args env = Except.error e := by
  cases hval : validate args with
  | error e => exact ⟨e, by simp [pysr, hval]⟩
  | ok u =>
    exfalso
    cases u
    obtain ⟨hrow, hwfact, hvn⟩ := validate_ok_facts args x yv hx hy hval
    rcases hmis with h | ⟨w, hww, hne⟩ | ⟨hn, hlen⟩
    · exact h hrow
    · exact hne (hwfact w hww).symm
    · exact hlen (hvn hn)

/-- Witness for C4: `X` with 2 rows against a `y` of length 3. -/
theorem pysr_shape_mismatch_error_witness :
    argsMismatch.X = some ⟨[2, 1], [0, 0]⟩ ∧
    argsMismatch.y = some ⟨[3], [0, 0, 0]⟩ ∧
    (NDArray.mk [2, 1] [0, 0]).shape.headD 0 ≠
      (NDArray.mk [3] [0, 0, 0]).shape.headD 0 ∧
    ∃ e, pysr argsMismatch envNoFile = Except.error e :=
  ⟨rfl, rfl, by decide,
    pysr_shape_mismatch_error argsMismatch envNoFile ⟨[2, 1], [0, 0]⟩
      ⟨[3], [0, 0, 0]⟩ rfl rfl (Or.inl (by decide))⟩

/-- Counterexample to C5 as stated: with a well-formed call and an existing
equation file whose rows hold complexities 3 then 1, the returned table
keeps the file order and is not sorted ascending by complexity — the
wrapper never sorts (lines 285-317 only append columns). -/
theorem pysr_table_unsorted_counterexample :
    tableComplexities (pysr argsOK envUnsorted) = [3, 1] ∧
    ¬ List.Sorted (· ≤ ·) (tableComplexities (pysr argsOK envUnsorted)) := by
  have h : tableComplexities (pysr argsOK envUnsorted) = [3, 1] := rfl
  exact ⟨h, by rw [h]; decide⟩

/-- C5 (amended): whenever the equation file exists, the returned table has
one row per file row with the file's `Complexity`, `MSE` and `Equation`
values, in the same order as the file; in particular it is sorted ascending
by complexity whenever the file's rows are. -/
theorem pysr_table_rows_file_order (args : PysrArgs) (env : PysrEnv)
    (file : List EqFileRow) (hv : validate args = Except.ok ())
    (hf : env.file = some file) :
    ∃ s, pysr args env = Except.ok s ∧
      s.table.length = file.length ∧
      (∀ i a, file.get? i = some a →
        s.table.get? i = some ⟨a.Complexity, a.MSE, a.Equation⟩) ∧
      (List.Sorted (fun a b => a.Complexity ≤ b.Complexity) file →
        List.Sorted (fun a b => a.complexity ≤ b.complexity) s.table) := by
  unfold pysr
  rw [hv]
  refine ⟨_, rfl, ?_, ?_, ?_⟩
  · simp [hf, buildRows]
  · intro i a ha
    simp only [hf, Option.map_some', Option.getD_some, buildRows,
      List.get?_eq_getElem?, List.getElem?_map] at ha ⊢
    rw [ha]
    rfl
  · intro hsorted
    simp only [hf, Option.map_some', Option.getD_some, buildRows]
    rw [List.Sorted, List.pairwise_map]
    exact hsorted

/-- Witness for C5 (amended) at a sorted two-row equation file. -/
theorem pysr_table_rows_file_order_witness :
    validate argsOK = Except.ok () ∧ envSorted.file = some fileSorted ∧
    ∃ s, pysr argsOK envSorted = Except.ok s ∧
      s.table.length = fileSorted.length ∧
      (∀ i a, fileSorted.get? i = some a →
        s.table.get? i = some ⟨a.Complexity, a.MSE, a.Equation⟩) ∧
      (List.Sorted (fun a b => a.Complexity ≤ b.Complexity) fileSorted →
        List.Sorted (fun a b => a.complexity ≤ b.complexity) s.table) :=
  ⟨rfl, rfl, pysr_table_rows_file_order argsOK envSorted fileSorted rfl rfl⟩

/-- Helper: the element of the score list one past position `i` carries the
log-ratio formula of line 307 computed from rows `i` and `i+1`, whatever
loop state the loop started from. -/
theorem scoresLoop_get_succ (file : List EqFileRow) :
    ∀ (lm : Option ℚ) (lc : Nat) (i : Nat) (a b : EqFileRow),
      file.get? i = some a → file.get? (i + 1) = some b →
      (scoresLoop lm lc file).get? (i + 1) =
        some (Real.log ((b.MSE : ℝ) / (a.MSE : ℝ)) /
          ((b.Complexity : ℝ) - (a.Complexity : ℝ))) := by
  induction file with
  | nil => intro lm lc i a b ha _; simp at ha
  | cons r rest ih =>
    intro lm lc i a b ha hb
    cases i with
    | zero =>
      have har : r = a := by simpa using ha
      subst har
      cases rest with
      | nil => simp at hb
      | cons b' rest' =>
        have hbb : b' = b := by simpa using hb
        subst hbb
        simp [scoresLoop]
    | succ j =>
      have ha' : rest.get? j = some a := by simpa using ha
      have hb' : rest.get? (j + 1) = some b := by simpa using hb
      simpa [scoresLoop] using ih (some r.MSE) r.Complexity j a b ha' hb'

/-- C8: under strictly increasing complexities, the `score` column of
lines 291-311 gives the first row the score `0.0` and every later row the
value `log(MSE_i/MSE_(i-1)) / (Complexity_i - Complexity_(i-1))` computed
from the immediately preceding row. -/
theorem score_column_formula (file : List EqFileRow)
    (hinc : List.Chain' (fun a b => a.Complexity < b.Complexity) file) :
    (file ≠ [] → (computeScores file).get? 0 = some 0) ∧
    (∀ i a b, file.get? i = some a → file.get? (i + 1) = some b →
      (computeScores file).get? (i + 1) =
        some (Real.log ((b.MSE : ℝ) / (a.MSE : ℝ)) /
          ((b.Complexity : ℝ) - (a.Complexity : ℝ)))) := by
  constructor
  · intro hne
    cases file with
    | nil => exact absurd rfl hne
    | cons r rest => simp [computeScores, scoresLoop]
  · intro i a b ha hb
    exact scoresLoop_get_succ file none 0 i a b ha hb

/-- Witness for C8 at a concrete strictly-increasing two-row file. -/
theorem score_column_formula_witness :
    List.Chain' (fun a b => a.Complexity < b.Complexity) fileTwo ∧
    ((fileTwo ≠ [] → (computeScores fileTwo).get? 0 = some 0) ∧
     (∀ i a b, fileTwo.get? i = some a → fileTwo.get? (i + 1) = some b →
       (computeScores fileTwo).get? (i + 1) =
         some (Real.log ((b.MSE : ℝ) / (a.MSE : ℝ)) /
           ((b.Complexity : ℝ) - (a.Complexity : ℝ))))) := by
  have hch : List.Chain' (fun a b => a.Complexity < b.Complexity) fileTwo := by
    simp [fileTwo, List.chain'_cons, List.chain'_singleton]
  exact ⟨hch, score_column_formula fileTwo hch⟩

end PySR
